import Mathlib

/-!
Shallow embedding of the chat-orchestration core of the repository:
`backend/app/langgraph/orchestrator.py`, `backend/app/services/agent_client.py`,
`backend/app/schemas.py` and `backend/app/agents/rag_knowledge.py`.

Python floats are modelled as rationals, the dict-based LangGraph state as a
structure, and every network interaction (the LLM classifier, the handler HTTP
call, the time/location lookups) as an explicit outcome value supplied by the
environment, so that every code path becomes a total Lean function.  A Python
function that can raise is modelled with `Except`.
-/

/-- Python substring test `sub in s`, on the underlying character lists. -/
def strContains (s sub : String) : Bool :=
  decide (sub.data <:+: s.data)

/-- Python `str.lower()` (which lowercases per character), on the character
list.  (The core `String.toLower` computes the same map through a byte-indexed
recursion that the kernel cannot unfold, so the list form is used.) -/
def pyLower (s : String) : String :=
  String.mk (s.data.map Char.toLower)

/-- Python `str.strip()` with no argument: drop whitespace from both ends. -/
def pyTrim (s : String) : String :=
  String.mk (((s.data.dropWhile Char.isWhitespace).reverse.dropWhile Char.isWhitespace).reverse)

/-- Python `str.split()` with no argument: split on whitespace runs and drop
the empty pieces. -/
def pyWords (s : String) : List String :=
  ((s.data.splitOnP Char.isWhitespace).map String.mk).filter (fun w => w ≠ "")

/-- `schemas.ChatMessage`. -/
structure ChatMessage where
  role : String
  content : String
  deriving Repr, DecidableEq

/-- `schemas.ChatRequest`, restricted to what `run_chat` reads: `message`,
`history`, and the one recognized metadata key, where `lastSources` holds the
value of the Python expression `metadata.get("lastSources") or []`. -/
structure ChatRequest where
  message : String
  history : List ChatMessage
  lastSources : List String
  deriving Repr, DecidableEq

/-- `schemas.ChatResponse`. -/
structure ChatResponse where
  response : String
  sources : List String
  confidence : Option ℚ
  confidence_level : Option String
  follow_up_questions : List String
  deriving Repr, DecidableEq

/-- `schemas.AgentResponse` after pydantic validation succeeded: `confidence`
is always present (default 0.8) and within [0, 1]. -/
structure AgentResponse where
  response : String
  sources : List String
  confidence : ℚ
  deriving Repr, DecidableEq

/-- The JSON body of a 2xx agent reply before validation: `confidence` may be
absent and may hold any number. -/
structure RawAgentData where
  response : String
  sources : List String
  confidence : Option ℚ
  deriving Repr, DecidableEq

/-- Pydantic validation of `AgentResponse(**data)`: the `confidence` field
defaults to 0.8 and must satisfy ge=0.0 and le=1.0.  A violating value raises
ValidationError; it is rejected, not clamped. -/
def parseAgentResponse (raw : RawAgentData) : Except String AgentResponse :=
  let c := raw.confidence.getD (8/10)
  if 0 ≤ c ∧ c ≤ 1 then Except.ok ⟨raw.response, raw.sources, c⟩
  else Except.error "confidence out of range"

/-- The LangGraph `AgentState` dict, restricted to the keys the four wired
nodes and `run_chat` touch.  `confidence` is optional in the TypedDict but
`_initial_state` always sets it. -/
structure AgentState where
  prompt : String
  history : List ChatMessage
  plan : String
  context : String
  sources : List String
  response : String
  confidence : Option ℚ
  preferred_sources : List String
  deriving Repr, DecidableEq

/-- Outcome of one `llm.invoke` call, as the orchestrator observes it: the
final string content, or an exception carrying a message. -/
inductive LLMCall where
  | ok (text : String)
  | exn (msg : String)
  deriving Repr, DecidableEq

/-- `LOW_CONFIDENCE_THRESHOLD` of orchestrator.py. -/
def LOW_CONFIDENCE_THRESHOLD : ℚ := 7/10

/-- `MEDIUM_CONFIDENCE_THRESHOLD` of orchestrator.py. -/
def MEDIUM_CONFIDENCE_THRESHOLD : ℚ := 9/10

/-- `_compute_confidence_level`: map a numeric score into a coarse label. -/
def computeConfidenceLevel : Option ℚ → Option String
  | none => none
  | some score =>
    if score < LOW_CONFIDENCE_THRESHOLD then some "low"
    else if score < MEDIUM_CONFIDENCE_THRESHOLD then some "medium"
    else some "high"

/-- The `agent_keywords` table of `_plan`, in Python dict insertion order; the
scalar entry for `direct` behaves like a one-keyword list. -/
def agentKeywords : List (String × List String) :=
  [("rag_knowledge", ["rag_knowledge", "rag", "knowledge", "document", "file", "upload"]),
   ("web_search", ["web_search", "web", "search", "latest", "news", "online"]),
   ("time_location", ["time_location", "time location", "time & location"]),
   ("direct", ["direct"])]

/-- The keyword scan of `_plan`: first table entry one of whose keywords is a
substring of the lowercased classifier output wins. -/
def planKeywordToken (decision : String) : Option String :=
  (agentKeywords.find? (fun p => p.2.any (fun kw => strContains decision kw))).map Prod.fst

/-- The broad web-request override phrases of `_plan`. -/
def webOverridePhrases : List String :=
  ["access the internet", "access internet", "access the web",
   "real-time data", "real time data", "use the internet"]

/-- The temporal/spatial override phrases of `_plan`. -/
def timeOverridePhrases : List String :=
  ["what time is it", "current time", "time now", "what\x27s the time",
   "where am i", "my location", "current location"]

/-- An exception escaping the planner (there is no try/except in `_plan`). -/
inductive PlanError where
  | llmException (msg : String)
  deriving Repr, DecidableEq

/-- The `_plan` node.  `llm` models `get_llm()` plus the outcome of the one
`llm.invoke` call: `none` when no LLM is configured, otherwise the call's
outcome.  The body mirrors the source order: keyword scan on the classifier
output first, then the web override, then the time/location override (each
override overwrites `token` when its phrase list matches the prompt), and
`token or "direct"` at the end.  An exception from `llm.invoke` is not caught
anywhere in `_plan`, so it surfaces as `Except.error`. -/
def planNode (llm : Option LLMCall) (state : AgentState) : Except PlanError AgentState :=
  let prompt := state.prompt
  match llm with
  | none => Except.ok { state with plan := "direct" }
  | some (LLMCall.exn msg) => Except.error (PlanError.llmException msg)
  | some (LLMCall.ok content) =>
    let decision := pyLower (pyTrim content)
    let token0 := planKeywordToken decision
    let promptLower := pyLower prompt
    let token1 :=
      if webOverridePhrases.any (fun p => strContains promptLower p) then some "web_search"
      else token0
    let token2 :=
      if timeOverridePhrases.any (fun p => strContains promptLower p) then some "time_location"
      else token1
    Except.ok { state with plan := token2.getD "direct" }

/-- What one `AgentClient.call_agent` HTTP round trip produced, as seen from
the orchestrator: connection errors and timeouts are httpx transport errors
without a response object; a non-2xx status raises `HTTPStatusError`, whose
response body is summarized by a detail string; a 2xx reply carries a JSON
body (which may fail to parse into a valid `AgentResponse`); any other
failure, such as a body that is not JSON at all, is a generic exception. -/
inductive WireResult where
  | connectionError (msg : String)
  | timeout (msg : String)
  | non2xx (detail : String)
  | malformedBody (msg : String)
  | status2xx (raw : RawAgentData)
  deriving Repr, DecidableEq

/-- How `_call_agent_via_http` classifies the exception from `call_agent`:
an `httpx.HTTPError` with an optional response-derived detail string, or any
other exception with its text. -/
inductive AgentCallOutcome where
  | success (resp : AgentResponse)
  | httpError (detail : Option String)
  | otherError (msg : String)
  deriving Repr, DecidableEq

/-- The exception taxonomy of `call_agent` as `_call_agent_via_http` receives
it.  Transport errors carry no response object, so the `hasattr(e, "response")`
branch yields no detail; a non-2xx status always yields a detail string (the
JSON `detail` field, or `response.text`, or `str(e)`); a malformed body or a
pydantic ValidationError is re-raised as a plain exception. -/
def wireOutcome : WireResult → AgentCallOutcome
  | WireResult.connectionError _ => AgentCallOutcome.httpError none
  | WireResult.timeout _ => AgentCallOutcome.httpError none
  | WireResult.non2xx d => AgentCallOutcome.httpError (some d)
  | WireResult.malformedBody m => AgentCallOutcome.otherError m
  | WireResult.status2xx raw =>
    match parseAgentResponse raw with
    | Except.ok resp => AgentCallOutcome.success resp
    | Except.error m => AgentCallOutcome.otherError m

/-- `_call_agent_via_http`: update the state from the call outcome.  On
success copy the response fields; on an HTTP error write an error message
naming the agent (plus the extracted detail if any), clear the sources and
zero the confidence; on any other exception do the same with the generic
message.  `context` is cleared on every path.  The Lean function is total:
this is the never-raises guarantee. -/
def callAgentViaHttp (agentName : String) (outcome : AgentCallOutcome)
    (state : AgentState) : AgentState :=
  let state1 :=
    match outcome with
    | AgentCallOutcome.success resp =>
      { state with response := resp.response, sources := resp.sources,
                   confidence := some resp.confidence }
    | AgentCallOutcome.httpError detail =>
      let baseMsg := "Error calling agent " ++ agentName
      let errorMsg :=
        match detail with
        | none => baseMsg
        | some d => baseMsg ++ ": " ++ d
      { state with response := errorMsg, sources := [], confidence := some 0 }
    | AgentCallOutcome.otherError m =>
      { state with response := "Error calling agent " ++ agentName ++ ": " ++ m,
                   sources := [], confidence := some 0 }
  { state1 with context := "" }

/-- Dispatch to the handler bound to `agentName`: the HTTP call produces
`wire`, which `_call_agent_via_http` folds into the state. -/
def dispatch (agentName : String) (wire : WireResult) (state : AgentState) : AgentState :=
  callAgentViaHttp agentName (wireOutcome wire) state

/-- `_direct_agent`: answer via the LLM without external tools; `llmText` is
what `_invoke_llm` returned (it never raises: it has string fallbacks).  The
node writes the default confidence 0.8. -/
def directAgent (llmText : String) (st : AgentState) : AgentState :=
  { st with response := llmText, context := "", sources := [],
            confidence := some (8/10) }

/-- `_time_location_agent`: the response text is assembled from network
lookups, modelled by the `responseParts` the environment yields (the code
guarantees the list is never empty, since the local-time fallback appends a
part even when every lookup fails).  The node clears `context` and `sources`
and does not touch `confidence`. -/
def timeLocationAgent (responseParts : List String) (st : AgentState) : AgentState :=
  { st with
      response :=
        if responseParts = [] then "Unable to fetch time and location information."
        else "Current Time & Location:\n" ++ String.intercalate "\n" responseParts,
      context := "",
      sources := [] }

/-- `_route_plan`: `routing_map.get(plan, "direct")`, where the map is the
identity on the three non-default plans. -/
def routePlan (st : AgentState) : String :=
  if st.plan = "rag_knowledge" ∨ st.plan = "web_search" ∨ st.plan = "time_location" then st.plan
  else "direct"

/-- Everything the environment decides during one turn: the planner LLM call,
the two possible handler HTTP calls, the direct-agent LLM text, the
time/location lookup parts and the follow-up LLM call. -/
structure TurnEnv where
  plannerLLM : Option LLMCall
  ragWire : WireResult
  webWire : WireResult
  directText : String
  timeParts : List String
  followUpLLM : Option LLMCall
  deriving Repr, DecidableEq

/-- The conditional edge of `_build_graph`: run the agent node selected by
`_route_plan`.  `rag_knowledge` and `web_search` dispatch over HTTP to the
agents named "rag-knowledge" and "web-search". -/
def runAgentNode (env : TurnEnv) (st : AgentState) : AgentState :=
  let route := routePlan st
  if route = "rag_knowledge" then dispatch "rag-knowledge" env.ragWire st
  else if route = "web_search" then dispatch "web-search" env.webWire st
  else if route = "time_location" then timeLocationAgent env.timeParts st
  else directAgent env.directText st

/-- One `graph.ainvoke`: the `plan` node followed by the routed agent node,
then END.  An exception from the planner propagates. -/
def runGraph (env : TurnEnv) (st : AgentState) : Except PlanError AgentState :=
  (planNode env.plannerLLM st).map (runAgentNode env)

/-- The character set of the Python `line.strip(" -\t")` call in
`_build_follow_up_questions`. -/
def stripSet (c : Char) : Bool :=
  c = ' ' ∨ c = '-' ∨ c = '\t'

/-- Python `line.strip(" -\t")`: drop characters of the set from both ends. -/
def pyStrip (s : String) : String :=
  String.mk (((s.data.dropWhile stripSet).reverse.dropWhile stripSet).reverse)

/-- Python `str.splitlines` on the line terminators that matter here.  (The
real splitlines also folds a CR-LF pair into one break and knows further
Unicode terminators; since `_build_follow_up_questions` strips each line and
then discards the empty ones, the difference is unobservable in its output.) -/
def splitLines (s : String) : List String :=
  (s.data.splitOnP (fun c => c = '\n' ∨ c = '\r')).map String.mk

/-- `_build_follow_up_questions`: with no LLM return `[]`; otherwise ask the
LLM (messages are built from the prompt and the last 4 history turns, which
only shape the environment-supplied outcome), split its text into lines,
strip each line, drop empties, keep at most `maxQuestions`.  The whole body
sits in a try/except returning `[]`, so an LLM exception yields `[]`. -/
def buildFollowUpQuestions (llm : Option LLMCall) (maxQuestions : Nat) : List String :=
  match llm with
  | none => []
  | some (LLMCall.exn _) => []
  | some (LLMCall.ok text) =>
    ((((splitLines text).map pyStrip).filter (fun q => q ≠ "")).take maxQuestions)

/-- `ChatOrchestrator._initial_state`. -/
def initialState (req : ChatRequest) : AgentState :=
  { prompt := req.message
    history := req.history
    plan := "direct"
    context := ""
    sources := []
    response := ""
    confidence := some (8/10)
    preferred_sources := req.lastSources }

/-- The post-graph half of `ChatOrchestrator.run_chat`: band the numeric
confidence, force the band to low for prompts of at most two words, and
attempt follow-up questions when a numeric score exists and the band is
low. -/
def finalizeChat (followUpLLM : Option LLMCall) (req : ChatRequest)
    (finalState : AgentState) : ChatResponse :=
  let responseText := finalState.response
  let sources := finalState.sources
  let confidence := finalState.confidence
  let level0 := computeConfidenceLevel confidence
  let promptText := pyTrim req.message
  let wordCount := (pyWords promptText).length
  let level := if wordCount ≤ 2 then some "low" else level0
  let followUps :=
    if confidence.isSome ∧ level = some "low" then buildFollowUpQuestions followUpLLM 3
    else []
  { response := responseText
    sources := sources
    confidence := confidence
    confidence_level := level
    follow_up_questions := followUps }

/-- `ChatOrchestrator.run_chat`: run the graph on the initial state, then
derive the turn result.  A planner exception escapes `graph.ainvoke` and
hence `run_chat`. -/
def runChat (env : TurnEnv) (req : ChatRequest) : Except PlanError ChatResponse :=
  (runGraph env (initialState req)).map (finalizeChat env.followUpLLM req)

/-- One scored document returned by `search_with_scores` in
`rag_knowledge.execute_agent`: page content, the metadata filename (absent or
empty when the store holds none) and the raw distance score. -/
structure RagDoc where
  content : String
  filename : Option String
  score : ℚ
  deriving Repr, DecidableEq

/-- The Python expression `doc.metadata.get("filename") or "Uploaded document"`
(an absent or empty filename is falsy). -/
def ragFilename (d : RagDoc) : String :=
  match d.filename with
  | some f => if f = "" then "Uploaded document" else f
  | none => "Uploaded document"

/-- Python `list(dict.fromkeys(l))`: keep the first occurrence of every
element, preserving order; every later duplicate is dropped.  (Dropping the
duplicates of the head after deduplicating the tail gives the same list as
dropping them before, and keeps the recursion structural.) -/
def dedupFirstSeen : List String → List String
  | [] => []
  | x :: xs => x :: (dedupFirstSeen xs).filter (fun y => y ≠ x)

/-- The similarity normalization of `execute_agent`:
`max(0.0, min(1.0, 1.0 - abs(score)))`. -/
def similarityOf (score : ℚ) : ℚ :=
  max 0 (min 1 (1 - |score|))

/-- The preferred-source filter of `execute_agent`: when the previous turn
surfaced sources, keep only documents whose filename is among them, unless
that drops everything. -/
def ragFilteredDocs (preferred : List String) (docs : List RagDoc) : List RagDoc :=
  if preferred = [] then docs
  else
    let filtered := docs.filter (fun d => preferred.contains (ragFilename d))
    if filtered = [] then docs else filtered

/-- The documents that survive the empty-content check (Python skips documents
whose stripped page content is empty). -/
def ragKeptDocs (preferred : List String) (docs : List RagDoc) : List RagDoc :=
  (ragFilteredDocs preferred docs).filter (fun d => pyTrim d.content ≠ "")

/-- The `sources` list `execute_agent` accumulates, one entry per kept
document, before deduplication. -/
def ragSources (preferred : List String) (docs : List RagDoc) : List String :=
  (ragKeptDocs preferred docs).map ragFilename

/-- The confidence formula of `execute_agent`:
`min(1.0, avg_similarity * 0.7 + doc_count_factor * 0.3)`. -/
def ragConfidence (preferred : List String) (docs : List RagDoc) : ℚ :=
  let scores := (ragKeptDocs preferred docs).map (fun d => similarityOf d.score)
  let avgSimilarity := if scores = [] then 0 else scores.sum / (scores.length : ℚ)
  let docCountFactor := min 1 (((ragKeptDocs preferred docs).length : ℚ) / 3)
  min 1 (avgSimilarity * (7/10) + docCountFactor * (3/10))

/-- The retrieval path of `rag_knowledge.execute_agent` (past the list-intent
special case): with no usable snippet, a direct LLM answer with confidence
0.3 and no sources; otherwise the grounded answer with the first-seen
deduplicated source list and the computed confidence.  `answerText` stands
for the `_invoke_llm` result, which never raises. -/
def ragExecute (answerText : String) (preferred : List String)
    (docs : List RagDoc) : AgentResponse :=
  if ragKeptDocs preferred docs = [] then
    ⟨answerText, [], 3/10⟩
  else
    ⟨answerText, dedupFirstSeen (ragSources preferred docs), ragConfidence preferred docs⟩

/-! Helper lemmas about string concatenation, used for the dispatcher error
message shape. -/

theorem strData_append (a b : String) : (a ++ b).data = a.data ++ b.data := rfl

theorem strAppend_assoc (a b c : String) : a ++ b ++ c = a ++ (b ++ c) := by
  apply String.ext
  rw [strData_append, strData_append, strData_append, strData_append, List.append_assoc]

theorem strAppend_empty (a : String) : a ++ "" = a := by
  apply String.ext
  rw [strData_append]
  exact List.append_nil _

theorem errMsg_ne_empty (x : String) : "Error calling agent " ++ x ≠ "" := by
  intro h
  have hd := congrArg String.data h
  rw [strData_append] at hd
  exact absurd (List.append_eq_nil.mp hd).1 (by decide)

/-- C3: for every score s, the banding function returns low iff s < 0.70,
medium iff 0.70 <= s < 0.90, high iff s >= 0.90, and returns none iff the
score is absent. -/
theorem confidence_banding_iff (s : ℚ) (o : Option ℚ) :
    (computeConfidenceLevel (some s) = some "low" ↔ s < 7/10) ∧
    (computeConfidenceLevel (some s) = some "medium" ↔ 7/10 ≤ s ∧ s < 9/10) ∧
    (computeConfidenceLevel (some s) = some "high" ↔ 9/10 ≤ s) ∧
    (computeConfidenceLevel o = none ↔ o = none) := by
  refine ⟨?_, ?_, ?_, ?_⟩
  · simp only [computeConfidenceLevel, LOW_CONFIDENCE_THRESHOLD, MEDIUM_CONFIDENCE_THRESHOLD]
    split_ifs with h1 h2 <;> simp_all
  · simp only [computeConfidenceLevel, LOW_CONFIDENCE_THRESHOLD, MEDIUM_CONFIDENCE_THRESHOLD]
    split_ifs with h1 h2 <;> simp_all
  · simp only [computeConfidenceLevel, LOW_CONFIDENCE_THRESHOLD, MEDIUM_CONFIDENCE_THRESHOLD]
    split_ifs with h1 h2 <;> simp_all
    linarith
  · cases o with
    | none => simp [computeConfidenceLevel]
    | some s₀ =>
      simp only [computeConfidenceLevel]
      split_ifs <;> simp

/-- A concrete per-turn state used by counterexamples: a plain prompt that
triggers none of the deterministic overrides. -/
def stPlain : AgentState := initialState ⟨"please summarize our quarterly budget", [], []⟩

/-- C2 counterexample: with a configured classifier whose call raises, `_plan`
raises too (there is no try/except around `llm.invoke`), instead of swallowing
the failure and returning the direct fallback plan. -/
theorem planner_raises_on_classifier_exception :
    planNode (some (LLMCall.exn "connection reset")) stPlain =
      Except.error (PlanError.llmException "connection reset") := rfl

/-- C2 amended: the planner returns the `direct` fallback only when no
classifier is configured; a raising classifier call propagates its exception
out of the planner, while a classifier call that returns text never raises. -/
theorem planner_fallback_behavior (st : AgentState) (msg text : String) :
    planNode none st = Except.ok { st with plan := "direct" } ∧
    planNode (some (LLMCall.exn msg)) st = Except.error (PlanError.llmException msg) ∧
    (planNode (some (LLMCall.ok text)) st).isOk = true :=
  ⟨rfl, rfl, rfl⟩

/-- The state of a turn whose prompt is exactly "what time is it". -/
def stTime : AgentState := initialState ⟨"what time is it", [], []⟩

/-- C5 counterexample: for the prompt "what time is it" with no classifier
configured, `_plan` returns `direct`, not `time_location` — the deterministic
overrides are skipped entirely on the no-LLM early return. -/
theorem time_prompt_without_classifier_goes_direct :
    planNode none stTime = Except.ok { stTime with plan := "direct" } ∧
    ("direct" : String) ≠ "time_location" :=
  ⟨rfl, by decide⟩

/-- C5 amended: when a classifier is configured and its call returns text
(any text at all), a prompt containing "what time is it" is planned as
`time_location`; with no classifier configured the plan is `direct`. -/
theorem time_phrase_override_with_classifier (st : AgentState) (text : String)
    (hcontains : strContains (pyLower st.prompt) "what time is it" = true) :
    planNode (some (LLMCall.ok text)) st = Except.ok { st with plan := "time_location" } ∧
    planNode none st = Except.ok { st with plan := "direct" } := by
  refine ⟨?_, rfl⟩
  have hany : timeOverridePhrases.any (fun p => strContains (pyLower st.prompt) p) = true := by
    refine List.any_eq_true.mpr ⟨"what time is it", ?_, hcontains⟩
    simp [timeOverridePhrases]
  simp [planNode, hany]

/-- C5 witness: the prompt "what time is it" with a classifier that returns
the token "web_search" still plans `time_location`. -/
theorem time_phrase_override_witness :
    planNode (some (LLMCall.ok "web_search")) stTime =
      Except.ok { stTime with plan := "time_location" } ∧
    planNode none stTime = Except.ok { stTime with plan := "direct" } :=
  time_phrase_override_with_classifier stTime "web_search" (by decide)

/-- The state of a turn whose prompt matches both the web-request override and
the time/location override. -/
def stBoth : AgentState :=
  initialState ⟨"please access the internet and tell me what time is it", [], []⟩

/-- C6 counterexample: a prompt matching both a broad web-request phrase and a
temporal phrase is planned as `time_location`, not `web_search`: the code runs
the time/location check after the web check and overwrites its token, so the
claimed step-1-first priority does not hold. -/
theorem both_overrides_prompt_goes_time_location :
    planNode (some (LLMCall.ok "direct")) stBoth =
      Except.ok { stBoth with plan := "time_location" } ∧
    ("time_location" : String) ≠ "web_search" :=
  ⟨rfl, by decide⟩

/-- C6 amended: the overrides are applied in sequence with the later
time/location check winning — for every prompt matching both a web-request
phrase and a temporal/spatial phrase (classifier configured and returning
text), the chosen plan is `time_location`. -/
theorem later_time_override_wins (st : AgentState) (text : String)
    (_hweb : webOverridePhrases.any (fun p => strContains (pyLower st.prompt) p) = true)
    (htime : timeOverridePhrases.any (fun p => strContains (pyLower st.prompt) p) = true) :
    planNode (some (LLMCall.ok text)) st = Except.ok { st with plan := "time_location" } := by
  simp [planNode, htime]

/-- C6 witness: the combined prompt satisfies both override hypotheses and is
planned as `time_location`. -/
theorem later_time_override_wins_witness :
    planNode (some (LLMCall.ok "rag_knowledge")) stBoth =
      Except.ok { stBoth with plan := "time_location" } :=
  later_time_override_wins stBoth "rag_knowledge" (by decide) (by decide)

/-- The failure modes of a handler call named by the dispatch claim; each maps
to the wire result `call_agent` produces for it. -/
inductive FailureMode where
  | connectionError (msg : String)
  | timeout (msg : String)
  | non2xx (detail : String)
  | malformedBody (msg : String)
  deriving Repr, DecidableEq

/-- Injection of the failure modes into the wire results. -/
def failureWire : FailureMode → WireResult
  | FailureMode.connectionError m => WireResult.connectionError m
  | FailureMode.timeout m => WireResult.timeout m
  | FailureMode.non2xx d => WireResult.non2xx d
  | FailureMode.malformedBody m => WireResult.malformedBody m

/-- C1: for every handler name and every failure mode of the handler call,
dispatch never raises (it is a total function) and yields a state whose
response is a non-empty string starting with an error message that names the
handler, whose sources are empty, and whose confidence is 0. -/
theorem dispatch_failure_shape (agentName : String) (st : AgentState) (f : FailureMode) :
    (∃ rest, (dispatch agentName (failureWire f) st).response =
      "Error calling agent " ++ (agentName ++ rest)) ∧
    (dispatch agentName (failureWire f) st).response ≠ "" ∧
    (dispatch agentName (failureWire f) st).sources = [] ∧
    (dispatch agentName (failureWire f) st).confidence = some 0 := by
  have hshape : ∀ d : String,
      "Error calling agent " ++ agentName ++ ": " ++ d =
        "Error calling agent " ++ (agentName ++ (": " ++ d)) := by
    intro d
    rw [strAppend_assoc, strAppend_assoc]
  cases f with
  | connectionError m =>
    refine ⟨⟨"", ?_⟩, ?_, rfl, rfl⟩
    · show "Error calling agent " ++ agentName = "Error calling agent " ++ (agentName ++ "")
      rw [strAppend_empty]
    · exact errMsg_ne_empty agentName
  | timeout m =>
    refine ⟨⟨"", ?_⟩, ?_, rfl, rfl⟩
    · show "Error calling agent " ++ agentName = "Error calling agent " ++ (agentName ++ "")
      rw [strAppend_empty]
    · exact errMsg_ne_empty agentName
  | non2xx d =>
    refine ⟨⟨": " ++ d, hshape d⟩, ?_, rfl, rfl⟩
    show "Error calling agent " ++ agentName ++ ": " ++ d ≠ ""
    rw [hshape d]
    exact errMsg_ne_empty _
  | malformedBody m =>
    refine ⟨⟨": " ++ m, hshape m⟩, ?_, rfl, rfl⟩
    show "Error calling agent " ++ agentName ++ ": " ++ m ≠ ""
    rw [hshape m]
    exact errMsg_ne_empty _

/-- C4: for every environment and request whose stripped message has at most
two whitespace-delimited words, any turn result produced by `run_chat` has
confidence_level low, regardless of the numeric confidence the handler
reported. -/
theorem short_prompt_forces_low (env : TurnEnv) (req : ChatRequest)
    (hshort : (pyWords (pyTrim req.message)).length ≤ 2)
    (resp : ChatResponse) (hrun : runChat env req = Except.ok resp) :
    resp.confidence_level = some "low" := by
  unfold runChat at hrun
  cases hg : runGraph env (initialState req) with
  | error e => rw [hg] at hrun; simp [Except.map] at hrun
  | ok fs =>
    rw [hg] at hrun
    simp only [Except.map, Except.ok.injEq] at hrun
    rw [← hrun]
    simp [finalizeChat, hshort]

/-- A turn environment with no LLM configured anywhere and failing handler
wires, used by witnesses. -/
def envNoLLM : TurnEnv :=
  { plannerLLM := none
    ragWire := WireResult.timeout "t"
    webWire := WireResult.timeout "t"
    directText := "(LLM unavailable right now.)"
    timeParts := []
    followUpLLM := none }

/-- The request of end-to-end scenario A: the two-word-or-less message "hi". -/
def reqHi : ChatRequest := ⟨"hi", [], []⟩

/-- The turn result the embedding computes for scenario A. -/
def respHi : ChatResponse :=
  { response := "(LLM unavailable right now.)"
    sources := []
    confidence := some (8/10)
    confidence_level := some "low"
    follow_up_questions := [] }

/-- C4 witness: the one-word prompt "hi" (handler confidence 0.8, which would
band medium) ends with confidence_level low. -/
theorem short_prompt_forces_low_witness : respHi.confidence_level = some "low" :=
  short_prompt_forces_low envNoLLM reqHi (by decide) respHi (by rfl)

/-- The `plan` node only writes the `plan` key: every other state key is
carried through unchanged on the non-raising paths. -/
theorem planNode_ok_preserves (llm : Option LLMCall) (st st' : AgentState)
    (h : planNode llm st = Except.ok st') :
    st'.confidence = st.confidence := by
  cases llm with
  | none =>
    simp only [planNode, Except.ok.injEq] at h
    rw [← h]
  | some c =>
    cases c with
    | exn m => simp [planNode] at h
    | ok t =>
      simp only [planNode, Except.ok.injEq] at h
      rw [← h]

/-- C10: for every turn whose planned state carries the `time_location` plan,
the turn result's numeric confidence is the initial-state default 0.8 (the
time/location node never writes a confidence), and when the prompt has more
than two words the confidence_level is therefore medium. -/
theorem time_location_turn_confidence (env : TurnEnv) (req : ChatRequest)
    (planned : AgentState)
    (hplan : planNode env.plannerLLM (initialState req) = Except.ok planned)
    (htl : planned.plan = "time_location") :
    ∃ resp, runChat env req = Except.ok resp ∧ resp.confidence = some (8/10) ∧
      (2 < (pyWords (pyTrim req.message)).length → resp.confidence_level = some "medium") := by
  have hconf : planned.confidence = some (8/10) :=
    planNode_ok_preserves _ _ _ hplan
  have hroute : routePlan planned = "time_location" := by
    simp [routePlan, htl]
  have hnode : runAgentNode env planned = timeLocationAgent env.timeParts planned := by
    simp [runAgentNode, hroute]
  refine ⟨finalizeChat env.followUpLLM req (runAgentNode env planned), ?_, ?_, ?_⟩
  · unfold runChat runGraph
    rw [hplan]
    rfl
  · rw [hnode]
    simp [finalizeChat, timeLocationAgent, hconf]
  · intro hlong
    rw [hnode]
    have hnotshort : ¬ (pyWords (pyTrim req.message)).length ≤ 2 := by omega
    simp [finalizeChat, timeLocationAgent, hconf, hnotshort,
      computeConfidenceLevel, LOW_CONFIDENCE_THRESHOLD, MEDIUM_CONFIDENCE_THRESHOLD]
    norm_num

/-- A turn environment whose classifier answers the turn with the token
"direct" and whose time lookup succeeded. -/
def envTL : TurnEnv :=
  { plannerLLM := some (LLMCall.ok "direct")
    ragWire := WireResult.timeout "t"
    webWire := WireResult.timeout "t"
    directText := "d"
    timeParts := ["- Time: 2026-10-12 10:00:00"]
    followUpLLM := none }

/-- A five-word request containing the time override phrase. -/
def reqTL : ChatRequest := ⟨"what time is it right now", [], []⟩

/-- The state the planner produces for `reqTL` under `envTL`. -/
def plannedTL : AgentState := { initialState reqTL with plan := "time_location" }

/-- C10 witness: the concrete time/location turn carries confidence 0.8 into
its result. -/
theorem time_location_turn_confidence_witness :
    ∃ resp, runChat envTL reqTL = Except.ok resp ∧ resp.confidence = some (8/10) ∧
      (2 < (pyWords (pyTrim reqTL.message)).length → resp.confidence_level = some "medium") :=
  time_location_turn_confidence envTL reqTL plannedTL (by rfl) (by rfl)

/-- The head of a `dropWhile` result never satisfies the dropped predicate. -/
theorem head_dropWhile_false (p : Char → Bool) (l : List Char) :
    ∀ c, (l.dropWhile p).head? = some c → p c = false := by
  induction l with
  | nil => intro c h; simp [List.dropWhile] at h
  | cons a t ih =>
    intro c h
    rw [List.dropWhile_cons] at h
    by_cases hp : p a = true
    · rw [if_pos hp] at h
      exact ih c h
    · rw [if_neg hp] at h
      simp only [List.head?_cons, Option.some.injEq] at h
      rw [← h]
      exact Bool.not_eq_true _ |>.mp hp

/-- A string produced by the Python `strip(" -\t")` call has no leading
character of the strip set. -/
theorem pyStrip_no_leading (s : String) :
    ∀ c, (pyStrip s).data.head? = some c → stripSet c = false := by
  intro c h
  have hsuffix : ((s.data.dropWhile stripSet).reverse.dropWhile stripSet) <:+
      (s.data.dropWhile stripSet).reverse := List.dropWhile_suffix _
  obtain ⟨t, ht⟩ := hsuffix
  have hA : s.data.dropWhile stripSet =
      ((s.data.dropWhile stripSet).reverse.dropWhile stripSet).reverse ++ t.reverse := by
    have := congrArg List.reverse ht
    simpa [List.reverse_append] using this.symm
  have hdata : (pyStrip s).data =
      ((s.data.dropWhile stripSet).reverse.dropWhile stripSet).reverse := rfl
  rw [hdata] at h
  apply head_dropWhile_false stripSet s.data c
  rw [hA]
  cases hr : ((s.data.dropWhile stripSet).reverse.dropWhile stripSet).reverse with
  | nil => rw [hr] at h; simp at h
  | cons c0 r2 =>
    rw [hr] at h
    simp only [List.head?_cons, Option.some.injEq] at h
    rw [← h]
    simp

/-- C7: the follow-up generator never raises (it is total); if the classifier
is unavailable or its call raises it returns the empty sequence; its result
always has at most 3 questions, each non-empty and free of leading
bullet/dash/whitespace characters; and on a successful classifier call the
result is a subsequence of the stripped generated lines, so generation order
is preserved. -/
theorem follow_ups_defensive (llm : Option LLMCall) (msg text : String) :
    buildFollowUpQuestions none 3 = [] ∧
    buildFollowUpQuestions (some (LLMCall.exn msg)) 3 = [] ∧
    (buildFollowUpQuestions llm 3).length ≤ 3 ∧
    (∀ q ∈ buildFollowUpQuestions llm 3,
      q ≠ "" ∧ ∀ c, q.data.head? = some c → stripSet c = false) ∧
    (buildFollowUpQuestions (some (LLMCall.ok text)) 3).Sublist
      ((splitLines text).map pyStrip) := by
  refine ⟨rfl, rfl, ?_, ?_, ?_⟩
  · cases llm with
    | none => simp [buildFollowUpQuestions]
    | some c =>
      cases c with
      | exn m => simp [buildFollowUpQuestions]
      | ok t =>
        simp only [buildFollowUpQuestions]
        rw [List.length_take]
        exact min_le_left _ _
  · intro q hq
    cases llm with
    | none => simp [buildFollowUpQuestions] at hq
    | some c =>
      cases c with
      | exn m => simp [buildFollowUpQuestions] at hq
      | ok t =>
        simp only [buildFollowUpQuestions] at hq
        have hq2 : q ∈ (((splitLines t).map pyStrip).filter (fun q => q ≠ "")) :=
          List.mem_of_mem_take hq
        rw [List.mem_filter] at hq2
        obtain ⟨hqmem, hqne⟩ := hq2
        have hqne2 : q ≠ "" := by simpa using hqne
        refine ⟨hqne2, ?_⟩
        rw [List.mem_map] at hqmem
        obtain ⟨line, _, hline⟩ := hqmem
        rw [← hline]
        exact pyStrip_no_leading line
  · simp only [buildFollowUpQuestions]
    exact ((List.take_sublist _ _).trans (List.filter_sublist _))

/-- First-seen deduplication is a subsequence of its input, has no
duplicates, and keeps exactly the elements of its input. -/
theorem dedupFirstSeen_spec (l : List String) :
    (dedupFirstSeen l).Sublist l ∧ (dedupFirstSeen l).Nodup ∧
    (∀ x, x ∈ dedupFirstSeen l ↔ x ∈ l) := by
  induction l with
  | nil => simp [dedupFirstSeen]
  | cons x xs ih =>
    obtain ⟨hsub, hnodup, hmem⟩ := ih
    refine ⟨?_, ?_, ?_⟩
    · exact ((List.filter_sublist _).trans hsub).cons₂ x
    · rw [dedupFirstSeen, List.nodup_cons]
      refine ⟨?_, hnodup.filter _⟩
      intro hx
      rw [List.mem_filter] at hx
      simp at hx
    · intro y
      rw [dedupFirstSeen]
      simp only [List.mem_cons, List.mem_filter, hmem y]
      by_cases hyx : y = x
      · simp [hyx]
      · simp [hyx]

/-- An environment whose classifier routes to the rag agent and whose handler
reply carries a duplicated source list. -/
def envDupSources : TurnEnv :=
  { plannerLLM := some (LLMCall.ok "rag_knowledge")
    ragWire := WireResult.status2xx ⟨"answer text", ["a.pdf", "b.pdf", "a.pdf"], some (mkRat 1 2)⟩
    webWire := WireResult.timeout "t"
    directText := "d"
    timeParts := []
    followUpLLM := none }

/-- The request of the duplicated-sources turn. -/
def reqDupSources : ChatRequest := ⟨"summarize the uploaded report", [], []⟩

/-- C8 counterexample: a handler response carrying sources
["a.pdf", "b.pdf", "a.pdf"] reaches the turn output unchanged — the
orchestrator does not deduplicate, so the turn result is not
["a.pdf", "b.pdf"]. -/
theorem duplicate_handler_sources_pass_through :
    (runChat envDupSources reqDupSources).map ChatResponse.sources =
      Except.ok ["a.pdf", "b.pdf", "a.pdf"] ∧
    (["a.pdf", "b.pdf", "a.pdf"] : List String) ≠ ["a.pdf", "b.pdf"] :=
  ⟨rfl, by decide⟩

/-- C8 amended: deduplication happens inside the rag_knowledge handler, not
in the orchestrator.  Dispatch passes a handler's source list through
unchanged (or clears it on failure); the rag handler's own response always
carries a duplicate-free, first-seen-ordered subsequence of the source names
it collected, and on the collected list ["a.pdf", "b.pdf", "a.pdf"] it
responds with ["a.pdf", "b.pdf"]. -/
theorem sources_dedup_in_handler (name answerText : String) (raw : RawAgentData)
    (st : AgentState) (preferred : List String) (docs : List RagDoc) :
    ((dispatch name (WireResult.status2xx raw) st).sources = raw.sources ∨
     (dispatch name (WireResult.status2xx raw) st).sources = []) ∧
    (ragExecute answerText preferred docs).sources.Nodup ∧
    (ragExecute answerText preferred docs).sources.Sublist (ragSources preferred docs) ∧
    (∀ x, x ∈ (ragExecute answerText preferred docs).sources ↔
      x ∈ ragSources preferred docs) ∧
    dedupFirstSeen ["a.pdf", "b.pdf", "a.pdf"] = ["a.pdf", "b.pdf"] := by
  obtain ⟨hsub, hnodup, hmem⟩ := dedupFirstSeen_spec (ragSources preferred docs)
  refine ⟨?_, ?_, ?_, ?_, by decide⟩
  · cases hp : parseAgentResponse raw with
    | ok resp =>
      have hw : wireOutcome (WireResult.status2xx raw) = AgentCallOutcome.success resp := by
        simp only [wireOutcome, hp]
      have hs : resp.sources = raw.sources := by
        simp only [parseAgentResponse] at hp
        split at hp
        · simp only [Except.ok.injEq] at hp
          rw [← hp]
        · simp at hp
      left
      rw [dispatch, hw]
      simp [callAgentViaHttp, hs]
    | error m =>
      have hw : wireOutcome (WireResult.status2xx raw) = AgentCallOutcome.otherError m := by
        simp only [wireOutcome, hp]
      right
      rw [dispatch, hw]
      rfl
  · unfold ragExecute
    split
    · simp
    · exact hnodup
  · unfold ragExecute
    split
    · simp
    · exact hsub
  · intro x
    unfold ragExecute
    split
    · rename_i hkept
      simp [ragSources, hkept]
    · exact hmem x

/-- A validated agent response carries a confidence within the declared
bounds. -/
theorem parseAgentResponse_ok_bounds (raw : RawAgentData) (resp : AgentResponse)
    (hp : parseAgentResponse raw = Except.ok resp) :
    0 ≤ resp.confidence ∧ resp.confidence ≤ 1 := by
  simp only [parseAgentResponse] at hp
  split at hp
  · rename_i h
    simp only [Except.ok.injEq] at hp
    rw [← hp]
    exact h
  · simp at hp

/-- C9 amended: every dispatch result carries a present confidence within
[0, 1]; a handler omitting the field gets the default 0.8; and a handler
reporting a value above 1 (or below 0) fails validation, so dispatch takes
its error path and reports confidence 0 — the out-of-range value is rejected,
not clamped. -/
theorem dispatch_confidence_invariant (name : String) (wire : WireResult) (st : AgentState)
    (respText : String) (srcs : List String) (c : ℚ) :
    (∃ cv, (dispatch name wire st).confidence = some cv ∧ 0 ≤ cv ∧ cv ≤ 1) ∧
    (dispatch name (WireResult.status2xx ⟨respText, srcs, none⟩) st).confidence =
      some (8/10) ∧
    (1 < c → (dispatch name (WireResult.status2xx ⟨respText, srcs, some c⟩) st).confidence =
      some 0) ∧
    (c < 0 → (dispatch name (WireResult.status2xx ⟨respText, srcs, some c⟩) st).confidence =
      some 0) := by
  refine ⟨?_, ?_, ?_, ?_⟩
  · cases wire with
    | connectionError m => exact ⟨0, rfl, by norm_num⟩
    | timeout m => exact ⟨0, rfl, by norm_num⟩
    | non2xx d => exact ⟨0, rfl, by norm_num⟩
    | malformedBody m => exact ⟨0, rfl, by norm_num⟩
    | status2xx raw =>
      cases hp : parseAgentResponse raw with
      | ok resp =>
        have hw : wireOutcome (WireResult.status2xx raw) = AgentCallOutcome.success resp := by
          simp only [wireOutcome, hp]
        refine ⟨resp.confidence, ?_, parseAgentResponse_ok_bounds raw resp hp⟩
        rw [dispatch, hw]
        rfl
      | error m =>
        have hw : wireOutcome (WireResult.status2xx raw) = AgentCallOutcome.otherError m := by
          simp only [wireOutcome, hp]
        refine ⟨0, ?_, by norm_num⟩
        rw [dispatch, hw]
        rfl
  · have hp : parseAgentResponse ⟨respText, srcs, none⟩ =
        Except.ok ⟨respText, srcs, 8/10⟩ := by
      simp only [parseAgentResponse, Option.getD]
      rw [if_pos (by norm_num)]
    have hw : wireOutcome (WireResult.status2xx ⟨respText, srcs, none⟩) =
        AgentCallOutcome.success ⟨respText, srcs, 8/10⟩ := by
      simp only [wireOutcome, hp]
    rw [dispatch, hw]
    rfl
  · intro hc
    have hp : parseAgentResponse ⟨respText, srcs, some c⟩ =
        Except.error "confidence out of range" := by
      simp only [parseAgentResponse, Option.getD]
      rw [if_neg]
      intro h
      exact absurd h.2 (not_le.mpr hc)
    have hw : wireOutcome (WireResult.status2xx ⟨respText, srcs, some c⟩) =
        AgentCallOutcome.otherError "confidence out of range" := by
      simp only [wireOutcome, hp]
    rw [dispatch, hw]
    rfl
  · intro hc
    have hp : parseAgentResponse ⟨respText, srcs, some c⟩ =
        Except.error "confidence out of range" := by
      simp only [parseAgentResponse, Option.getD]
      rw [if_neg]
      intro h
      exact absurd h.1 (not_le.mpr hc)
    have hw : wireOutcome (WireResult.status2xx ⟨respText, srcs, some c⟩) =
        AgentCallOutcome.otherError "confidence out of range" := by
      simp only [wireOutcome, hp]
    rw [dispatch, hw]
    rfl

/-- C9 counterexample: a handler reporting confidence 3/2 does not get its
value clamped to 1 — dispatch rejects the response and reports confidence 0
with an error message, so the out-of-range value is neither propagated nor
clamped. -/
theorem out_of_range_confidence_not_clamped :
    (dispatch "rag-knowledge"
      (WireResult.status2xx ⟨"ok", [], some (mkRat 3 2)⟩) stPlain).confidence = some 0 ∧
    (dispatch "rag-knowledge"
      (WireResult.status2xx ⟨"ok", [], some (mkRat 3 2)⟩) stPlain).response =
      "Error calling agent rag-knowledge: confidence out of range" ∧
    (0 : ℚ) ≠ min 1 (mkRat 3 2) :=
  ⟨rfl, rfl, by norm_num [Rat.mkRat_eq_div]⟩
